import Mathlib

/-!
# Verification of the Claude Focus Guard webhook server's activity tracker

Shallow embedding of `src/webhook-server/server.js` (the activity-state
tracker: `handleHookEvent`, `isClaudeActive`, `getStatus`, and the
`POST /hook` boundary), together with proofs about the tracker.

Modelling conventions:
* JSON values are modelled by the inductive `Json`; JavaScript `undefined`
  (absent property) is modelled by `Option Json` being `none`.
* JavaScript truthiness is modelled by `jsTruthy` (`null`, `false`, `0`
  and `""` are falsy; arrays and objects are truthy).
* `Date.now()` readings are natural numbers supplied as an explicit `now`
  parameter.  JavaScript subtraction `now - t` is modelled by truncated
  `Nat` subtraction: for the only use `now - t < INACTIVITY_TIMEOUT`, a
  negative JS difference and a truncated-to-zero Nat difference both make
  the comparison true, so the boolean agrees with JS on all inputs.
* `Map` keys are compared with `primEq`: primitive keys compare by value
  (SameValueZero); two composite keys produced by distinct `JSON.parse`
  calls are distinct references, hence never equal, which `primEq` models
  by returning `false` on composites.
* The `receivedAt` ISO-8601 string stored in each history record is an
  injective image of the clock reading, so a record is modelled as the
  pair (event, clock reading).
* `handleHookEvent` returns `Option`: `none` models the `TypeError`
  thrown by `event.event` when the parsed body is `null`; that throw
  happens before any mutation, so the catching `POST /hook` handler
  leaves the state unchanged.
-/

/-- JSON values (JS numbers restricted to integers: every number this
program stores or compares is an integer). -/
inductive Json where
  | null : Json
  | bool : Bool → Json
  | num : Int → Json
  | str : String → Json
  | arr : List Json → Json
  | obj : List (String × Json) → Json

/-- JavaScript truthiness of a value. -/
def jsTruthy : Json → Bool
  | Json.null => false
  | Json.bool b => b
  | Json.num n => n != 0
  | Json.str s => s != ""
  | Json.arr _ => true
  | Json.obj _ => true

/-- `v === null` test. -/
def Json.isNull : Json → Bool
  | Json.null => true
  | _ => false

/-- SameValueZero equality as used by `Map` keys: primitives compare by
value; composite values from separate `JSON.parse` calls are distinct
references and never compare equal. -/
def Json.primEq : Json → Json → Bool
  | Json.null, Json.null => true
  | Json.bool a, Json.bool b => a == b
  | Json.num a, Json.num b => a == b
  | Json.str a, Json.str b => a == b
  | _, _ => false

/-- Property access `v.k`: `none` models `undefined` (missing property or
non-object receiver).  The objects this program builds have pairwise
distinct keys, so first-match lookup agrees with JS. -/
def getField : Json → String → Option Json
  | Json.obj fs, k => (fs.find? (fun p => p.1 = k)).map Prod.snd
  | _, _ => none

/-- `a || b` where `a` is a possibly-`undefined` property value. -/
def jsOr (a : Option Json) (b : Json) : Json :=
  match a with
  | some v => if jsTruthy v then v else b
  | none => b

/-- `event.event || event.hook_event_name` (line 41 of server.js). -/
def eventTypeOf (e : Json) : Option Json :=
  match getField e "event" with
  | some v => if jsTruthy v then some v else getField e "hook_event_name"
  | none => getField e "hook_event_name"

/-- `eventType === "name"` for a `switch` case label. -/
def etIs (et : Option Json) (name : String) : Bool :=
  match et with
  | some (Json.str t) => t == name
  | _ => false

/-- The semantic event kind selected by the `switch` in `handleHookEvent`
(each kind merges its lowercase and PascalCase alias labels). -/
inductive EventKind where
  | sessionStart | sessionEnd | taskStart | taskEnd | stop | heartbeat | other
deriving DecidableEq

/-- The `switch (eventType)` dispatch of `handleHookEvent`. -/
def kindOf (e : Json) : EventKind :=
  let et := eventTypeOf e
  if etIs et "session_start" || etIs et "SessionStart" then EventKind.sessionStart
  else if etIs et "session_end" || etIs et "SessionEnd" then EventKind.sessionEnd
  else if etIs et "task_start" || etIs et "PreToolUse" then EventKind.taskStart
  else if etIs et "task_end" || etIs et "PostToolUse" then EventKind.taskEnd
  else if etIs et "stop" || etIs et "Stop" || etIs et "SubagentStop" then EventKind.stop
  else if etIs et "heartbeat" then EventKind.heartbeat
  else EventKind.other

/-- One entry of `state.activeTasks`: `{ startedAt: Date.now(), toolName: event.tool_name }`. -/
structure TaskEntry where
  startedAt : Nat
  toolName : Option Json

/-- One entry of `state.activityHistory`: the received event together
with the clock reading formatted into its `receivedAt` string. -/
structure ActivityRecord where
  event : Json
  receivedAt : Nat

/-- The module-level `state` object of server.js. -/
structure TrackerState where
  isActive : Bool
  lastActivity : Option Nat
  currentSession : Option Json
  activeTasks : List (Json × TaskEntry)
  activityHistory : List ActivityRecord

/-- The initial value of `state` (lines 14-20 of server.js). -/
def initialState : TrackerState :=
  { isActive := false, lastActivity := none, currentSession := none,
    activeTasks := [], activityHistory := [] }

/-- `INACTIVITY_TIMEOUT = 2 * 60 * 1000`. -/
def INACTIVITY_TIMEOUT : Nat := 2 * 60 * 1000

/-- `Map.prototype.set`: overwrite in place if the key is present,
otherwise append (JS `Map` preserves insertion order). -/
def mapSet (k : Json) (v : TaskEntry) (m : List (Json × TaskEntry)) :
    List (Json × TaskEntry) :=
  if m.any (fun p => Json.primEq p.1 k) then
    m.map (fun p => if Json.primEq p.1 k then (k, v) else p)
  else m ++ [(k, v)]

/-- `Map.prototype.delete`: keys are pairwise distinct, so removing the
(unique) entry with the key equals filtering it out. -/
def mapDelete (k : Json) (m : List (Json × TaskEntry)) :
    List (Json × TaskEntry) :=
  m.filter (fun p => !(Json.primEq p.1 k))

/-- Lines 36-39: `unshift` the new record, then `pop` when the length
exceeds 50. -/
def pushHistory (e : Json) (now : Nat) (h : List ActivityRecord) :
    List ActivityRecord :=
  let h2 := { event := e, receivedAt := now } :: h
  if 50 < h2.length then h2.dropLast else h2

/-- The `task_start` branch's `if (event.tool_use_id) state.activeTasks.set(...)`
(lines 63-68). -/
def taskStartTasks (event : Json) (now : Nat) (m : List (Json × TaskEntry)) :
    List (Json × TaskEntry) :=
  match getField event "tool_use_id" with
  | some tid =>
      if jsTruthy tid then
        mapSet tid { startedAt := now, toolName := getField event "tool_name" } m
      else m
  | none => m

/-- The `task_end` branch's `if (event.tool_use_id) state.activeTasks.delete(...)`
(lines 77-79). -/
def taskEndTasks (event : Json) (m : List (Json × TaskEntry)) :
    List (Json × TaskEntry) :=
  match getField event "tool_use_id" with
  | some tid => if jsTruthy tid then mapDelete tid m else m
  | none => m

/-- The `switch` body of `handleHookEvent` (lines 43-104), applied after
the history append. -/
def applyEvent (event : Json) (now : Nat) (s : TrackerState) : TrackerState :=
  match kindOf event with
  | EventKind.sessionStart =>
      { s with currentSession := some (jsOr (getField event "session_id") (Json.str "active")),
               isActive := true, lastActivity := some now }
  | EventKind.sessionEnd =>
      { s with currentSession := none, isActive := false, activeTasks := [] }
  | EventKind.taskStart =>
      { s with activeTasks := taskStartTasks event now s.activeTasks,
               isActive := true, lastActivity := some now }
  | EventKind.taskEnd =>
      let tasks := taskEndTasks event s.activeTasks
      { s with activeTasks := tasks, lastActivity := some now,
               isActive := decide (0 < tasks.length) || s.currentSession.isSome }
  | EventKind.stop => { s with lastActivity := some now }
  | EventKind.heartbeat => { s with lastActivity := some now }
  | EventKind.other => { s with lastActivity := some now }

/-- `handleHookEvent` (lines 29-105).  `none` models the `TypeError`
thrown on line 33 by `event.event` when the event is `null`; the throw
precedes every mutation, the history append included. -/
def handleHookEvent (event : Json) (now : Nat) (s : TrackerState) :
    Option TrackerState :=
  if event.isNull then none
  else
    some (applyEvent event now
      { s with activityHistory := pushHistory event now s.activityHistory })

/-- Truthiness of `state.currentSession` (null / a JSON value). -/
def jsTruthyOpt : Option Json → Bool
  | none => false
  | some v => jsTruthy v

/-- Truthiness of `state.lastActivity` (null / a number): `0` is falsy. -/
def lastActivityTruthy : Option Nat → Bool
  | none => false
  | some t => t != 0

/-- `isClaudeActive` (lines 110-130). -/
def isClaudeActive (s : TrackerState) (now : Nat) : Bool :=
  if !(jsTruthyOpt s.currentSession) && (s.activeTasks.length == 0) then false
  else if 0 < s.activeTasks.length then true
  else if lastActivityTruthy s.lastActivity then
    if now - s.lastActivity.getD 0 < INACTIVITY_TIMEOUT then true else false
  else false

/-- The body of a `GET /status` response (`getStatus`, lines 135-145). -/
structure StatusView where
  isActive : Bool
  lastActivity : Option Nat
  currentSession : Option Json
  activeTaskCount : Nat
  timeSinceActivity : Option Nat
  inactivityTimeout : Nat

/-- `getStatus` (lines 135-145). -/
def getStatus (s : TrackerState) (now : Nat) : StatusView :=
  { isActive := isClaudeActive s now,
    lastActivity := s.lastActivity,
    currentSession := s.currentSession,
    activeTaskCount := s.activeTasks.length,
    timeSinceActivity :=
      match s.lastActivity with
      | some t => if t != 0 then some (now - t) else none
      | none => none,
    inactivityTimeout := INACTIVITY_TIMEOUT }

/-- Submit a list of events, each with its clock reading, in order. -/
def runEvents : List (Json × Nat) → TrackerState → Option TrackerState
  | [], s => some s
  | (e, t) :: rest, s =>
      match handleHookEvent e t s with
      | some s1 => runEvents rest s1
      | none => none

/-- An HTTP response: status code and JSON body. -/
structure HookResponse where
  status : Nat
  body : Json

/-- `{"error":"Invalid JSON"}`. -/
def invalidJsonBody : Json := Json.obj [("error", Json.str "Invalid JSON")]

/-- `{"success":true}`. -/
def successBody : Json := Json.obj [("success", Json.bool true)]

/-- The `POST /hook` handler (lines 162-178), modelled at the boundary of
`JSON.parse`: `none` is a parse failure (`JSON.parse` threw), `some ev`
a successful parse.  A throw inside `handleHookEvent` (null event) is
caught by the same `catch`; it happens before any mutation, so the
pre-state is returned unchanged. -/
def handlePostHook (parsed : Option Json) (now : Nat) (s : TrackerState) :
    HookResponse × TrackerState :=
  match parsed with
  | none => ({ status := 400, body := invalidJsonBody }, s)
  | some ev =>
      match handleHookEvent ev now s with
      | some s1 => ({ status := 200, body := successBody }, s1)
      | none => ({ status := 400, body := invalidJsonBody }, s)

/-- Modelled from the spec: the four-step derivation rule of §4.1's
`queryActive()`, written from the spec's words ("session is null",
"tasks is non-empty", "lastActivityAt is set"). -/
def queryActiveSpec (s : TrackerState) (now : Nat) : Bool :=
  if s.currentSession.isNone && s.activeTasks.isEmpty then false
  else if !s.activeTasks.isEmpty then true
  else
    match s.lastActivity with
    | some t => decide (now - t < 120000)
    | none => false

/-- `if (event.tool_use_id)`: the event carries a truthy `tool_use_id`. -/
def hasTruthyTaskId (e : Json) : Bool :=
  match getField e "tool_use_id" with
  | some v => jsTruthy v
  | none => false

/-- Well-formedness of the values the tracker stores: `currentSession` is
null or a truthy value (it is only ever assigned `event.session_id || "active"`),
and `lastActivity` is null or a nonzero clock reading (it is only ever
assigned `Date.now()`, which is strictly positive in any run). -/
def WFstate (s : TrackerState) : Bool :=
  s.currentSession.all jsTruthy && s.lastActivity.all (fun t => t != 0)

/-- The cached flag agrees with the coarse predicate
`session open or some task in flight`. -/
def cacheOK (s : TrackerState) : Bool :=
  s.isActive == (s.currentSession.isSome || !s.activeTasks.isEmpty)

/-- A task-start event with no truthy `tool_use_id` arriving while the
session is null and the task mapping is empty (the one case where the
cached `isActive` and the query-time derivation disagree). -/
def badTaskStart (e : Json) (s : TrackerState) : Bool :=
  decide (kindOf e = EventKind.taskStart) && !(hasTruthyTaskId e)
    && s.currentSession.isNone && s.activeTasks.isEmpty

/-- Tracker states reachable from the initial state through
`handleHookEvent` under positive clock readings. -/
inductive Reachable : TrackerState → Prop where
  | init : Reachable initialState
  | step {s s1 : TrackerState} {e : Json} {now : Nat} :
      Reachable s → 0 < now → handleHookEvent e now s = some s1 → Reachable s1

/-- Reachability along event histories that contain no `badTaskStart`
submission. -/
inductive GoodReachable : TrackerState → Prop where
  | init : GoodReachable initialState
  | step {s s1 : TrackerState} {e : Json} {now : Nat} :
      GoodReachable s → 0 < now → badTaskStart e s = false →
      handleHookEvent e now s = some s1 → GoodReachable s1

lemma goodReachable_reachable {s : TrackerState} (h : GoodReachable s) :
    Reachable s := by
  induction h with
  | init => exact Reachable.init
  | step hs hnow _ hstep ih => exact Reachable.step ih hnow hstep

lemma jsOr_truthy (a : Option Json) (b : Json) (hb : jsTruthy b = true) :
    jsTruthy (jsOr a b) = true := by
  cases a with
  | none => simpa [jsOr]
  | some v =>
      cases hv : jsTruthy v with
      | true => simp [jsOr, hv]
      | false => simp [jsOr, hv, hb]

lemma handleHookEvent_eq {e : Json} (now : Nat) (s : TrackerState)
    (hn : e.isNull = false) :
    handleHookEvent e now s =
      some (applyEvent e now
        { s with activityHistory := pushHistory e now s.activityHistory }) := by
  simp [handleHookEvent, hn]

lemma mapSet_ne_nil (k : Json) (v : TaskEntry) (m : List (Json × TaskEntry)) :
    mapSet k v m ≠ [] := by
  unfold mapSet
  split
  · next hany =>
      intro hc
      rcases List.any_eq_true.mp hany with ⟨p, hp, _⟩
      rw [List.map_eq_nil_iff] at hc
      simp [hc] at hp
  · simp

lemma WFstate_history (s : TrackerState) (h : List ActivityRecord) :
    WFstate { s with activityHistory := h } = WFstate s := rfl

lemma cacheOK_history (s : TrackerState) (h : List ActivityRecord) :
    cacheOK { s with activityHistory := h } = cacheOK s := rfl

lemma isClaudeActive_history (s : TrackerState) (h : List ActivityRecord) (now : Nat) :
    isClaudeActive { s with activityHistory := h } now = isClaudeActive s now := rfl

lemma wf_applyEvent {e : Json} {now : Nat} {s : TrackerState} (hnow : 0 < now)
    (hs : WFstate s = true) : WFstate (applyEvent e now s) = true := by
  have hsess := ((Bool.and_eq_true _ _).mp hs).1
  have hla := ((Bool.and_eq_true _ _).mp hs).2
  have hnz : (now != 0) = true := by
    simp [Nat.pos_iff_ne_zero.mp hnow]
  simp only [Option.all] at hsess hla
  unfold applyEvent
  cases hk : kindOf e with
  | sessionStart =>
      simp [WFstate, Option.all, hnz]
      exact jsOr_truthy _ _ rfl
  | sessionEnd => simp [WFstate, Option.all, hla]
  | taskStart => simp [WFstate, Option.all, hnz, hsess]
  | taskEnd => simp [WFstate, Option.all, hnz, hsess]
  | stop => simp [WFstate, Option.all, hnz, hsess]
  | heartbeat => simp [WFstate, Option.all, hnz, hsess]
  | other => simp [WFstate, Option.all, hnz, hsess]

lemma reachable_wf {s : TrackerState} (h : Reachable s) : WFstate s = true := by
  induction h with
  | init => rfl
  | step hs hnow hstep ih =>
      rename_i s s1 e now
      cases hn : e.isNull with
      | true => simp [handleHookEvent, hn] at hstep
      | false =>
          rw [handleHookEvent_eq now s hn] at hstep
          have h1 := Option.some.inj hstep
          subst h1
          exact wf_applyEvent hnow (by rw [WFstate_history]; exact ih)

lemma taskStartTasks_ne_nil {e : Json} (now : Nat) (m : List (Json × TaskEntry))
    (h : hasTruthyTaskId e = true) : taskStartTasks e now m ≠ [] := by
  unfold hasTruthyTaskId at h
  cases hg : getField e "tool_use_id" with
  | none => rw [hg] at h; simp at h
  | some tid =>
      have h1 : jsTruthy tid = true := by rw [hg] at h; exact h
      simpa [taskStartTasks, hg, h1] using mapSet_ne_nil tid
        { startedAt := now, toolName := getField e "tool_name" } m

lemma taskStartTasks_id {e : Json} (now : Nat) (m : List (Json × TaskEntry))
    (h : hasTruthyTaskId e = false) : taskStartTasks e now m = m := by
  unfold hasTruthyTaskId at h
  cases hg : getField e "tool_use_id" with
  | none => simp [taskStartTasks, hg]
  | some tid =>
      have h1 : jsTruthy tid = false := by rw [hg] at h; exact h
      simp [taskStartTasks, hg, h1]

lemma badTaskStart_history (e : Json) (s : TrackerState) (h : List ActivityRecord) :
    badTaskStart e { s with activityHistory := h } = badTaskStart e s := rfl

lemma cacheOK_applyEvent {e : Json} {now : Nat} {s : TrackerState}
    (hbad : badTaskStart e s = false) (hs : cacheOK s = true) :
    cacheOK (applyEvent e now s) = true := by
  cases hk : kindOf e with
  | sessionStart => simp [applyEvent, hk, cacheOK]
  | sessionEnd => simp [applyEvent, hk, cacheOK]
  | taskStart =>
      cases htid : hasTruthyTaskId e with
      | true =>
          have hne := taskStartTasks_ne_nil (e := e) now s.activeTasks htid
          cases ht : taskStartTasks e now s.activeTasks with
          | nil => exact absurd ht hne
          | cons a l => simp [applyEvent, hk, cacheOK, ht]
      | false =>
          rw [badTaskStart, hk] at hbad
          simp only [decide_True, htid, Bool.not_false, Bool.true_and] at hbad
          simp only [applyEvent, hk, cacheOK, taskStartTasks_id now s.activeTasks htid]
          cases hcs : s.currentSession with
          | some v => simp
          | none =>
              cases hts : s.activeTasks with
              | cons a l => simp
              | nil => rw [hcs, hts] at hbad; simp at hbad
  | taskEnd =>
      cases ht : taskEndTasks e s.activeTasks with
      | nil => simp [applyEvent, hk, cacheOK, ht]
      | cons a l => simp [applyEvent, hk, cacheOK, ht]
  | stop => simpa [applyEvent, hk, cacheOK] using hs
  | heartbeat => simpa [applyEvent, hk, cacheOK] using hs
  | other => simpa [applyEvent, hk, cacheOK] using hs

lemma goodReachable_cacheOK {s : TrackerState} (h : GoodReachable s) :
    cacheOK s = true := by
  induction h with
  | init => rfl
  | step hs hnow hbad hstep ih =>
      rename_i s s1 e now
      cases hn : e.isNull with
      | true => simp [handleHookEvent, hn] at hstep
      | false =>
          rw [handleHookEvent_eq now s hn] at hstep
          have h1 := Option.some.inj hstep
          subst h1
          exact cacheOK_applyEvent
            (by rw [badTaskStart_history]; exact hbad)
            (by rw [cacheOK_history]; exact ih)

lemma isClaudeActive_fresh (s : TrackerState) (now : Nat)
    (hla : s.lastActivity = some now) (hnow : 0 < now) :
    isClaudeActive s now = (jsTruthyOpt s.currentSession || !s.activeTasks.isEmpty) := by
  have hnz : (now != 0) = true := by simp [Nat.pos_iff_ne_zero.mp hnow]
  unfold isClaudeActive
  rw [hla]
  cases hsess : jsTruthyOpt s.currentSession with
  | false =>
      cases hts : s.activeTasks with
      | nil => simp
      | cons a l => simp [lastActivityTruthy, hnz]
  | true =>
      cases hts : s.activeTasks with
      | nil => simp [lastActivityTruthy, hnz, INACTIVITY_TIMEOUT]
      | cons a l => simp

lemma wf_session_truthy {s : TrackerState} (hwf : WFstate s = true) {v : Json}
    (h : s.currentSession = some v) : jsTruthy v = true := by
  have h1 := ((Bool.and_eq_true _ _).mp hwf).1
  rw [h] at h1
  exact h1

lemma applyEvent_cache_consistent {e : Json} {now : Nat} {s : TrackerState}
    (hnow : 0 < now) (hwf : WFstate s = true) (hcache : cacheOK s = true)
    (hbad : badTaskStart e s = false) :
    (applyEvent e now s).isActive = isClaudeActive (applyEvent e now s) now := by
  cases hk : kindOf e with
  | sessionStart =>
      simp only [applyEvent, hk]
      rw [isClaudeActive_fresh _ now rfl hnow]
      have h1 : jsTruthy (jsOr (getField e "session_id") (Json.str "active")) = true :=
        jsOr_truthy _ _ (by decide)
      simp [jsTruthyOpt, h1]
  | sessionEnd =>
      simp only [applyEvent, hk]
      simp [isClaudeActive, jsTruthyOpt]
  | taskStart =>
      cases htid : hasTruthyTaskId e with
      | true =>
          have hne := taskStartTasks_ne_nil (e := e) now s.activeTasks htid
          simp only [applyEvent, hk]
          rw [isClaudeActive_fresh _ now rfl hnow]
          cases ht : taskStartTasks e now s.activeTasks with
          | nil => exact absurd ht hne
          | cons a l => simp [ht]
      | false =>
          simp only [applyEvent, hk, taskStartTasks_id now s.activeTasks htid]
          rw [isClaudeActive_fresh _ now rfl hnow]
          rw [badTaskStart, hk] at hbad
          simp only [decide_True, htid, Bool.not_false, Bool.true_and] at hbad
          cases hcs : s.currentSession with
          | some v =>
              have hv := wf_session_truthy hwf hcs
              simp [jsTruthyOpt, hv]
          | none =>
              cases hts : s.activeTasks with
              | cons a l => simp [jsTruthyOpt]
              | nil => rw [hcs, hts] at hbad; simp at hbad
  | taskEnd =>
      simp only [applyEvent, hk]
      rw [isClaudeActive_fresh _ now rfl hnow]
      cases hcs : s.currentSession with
      | none =>
          cases ht : taskEndTasks e s.activeTasks with
          | nil => simp [jsTruthyOpt, ht]
          | cons a l => simp [jsTruthyOpt, ht]
      | some v =>
          have hv := wf_session_truthy hwf hcs
          cases ht : taskEndTasks e s.activeTasks with
          | nil => simp [jsTruthyOpt, hv, ht]
          | cons a l => simp [jsTruthyOpt, hv, ht]
  | stop =>
      simp only [applyEvent, hk]
      rw [isClaudeActive_fresh _ now rfl hnow]
      rw [cacheOK] at hcache
      rw [beq_iff_eq.mp hcache]
      cases hcs : s.currentSession with
      | none => simp [jsTruthyOpt]
      | some v => simp [jsTruthyOpt, wf_session_truthy hwf hcs]
  | heartbeat =>
      simp only [applyEvent, hk]
      rw [isClaudeActive_fresh _ now rfl hnow]
      rw [cacheOK] at hcache
      rw [beq_iff_eq.mp hcache]
      cases hcs : s.currentSession with
      | none => simp [jsTruthyOpt]
      | some v => simp [jsTruthyOpt, wf_session_truthy hwf hcs]
  | other =>
      simp only [applyEvent, hk]
      rw [isClaudeActive_fresh _ now rfl hnow]
      rw [cacheOK] at hcache
      rw [beq_iff_eq.mp hcache]
      cases hcs : s.currentSession with
      | none => simp [jsTruthyOpt]
      | some v => simp [jsTruthyOpt, wf_session_truthy hwf hcs]

/-- The event `{event: "session_start", session_id: "s1"}`. -/
def sessionStartEvt : Json :=
  Json.obj [("event", Json.str "session_start"), ("session_id", Json.str "s1")]

/-- The event `{event: "session_end"}`. -/
def sessionEndEvt : Json := Json.obj [("event", Json.str "session_end")]

/-- The event `{event: "task_start"}` carrying no `tool_use_id`. -/
def bareTaskStartEvt : Json := Json.obj [("event", Json.str "task_start")]

/-- C1 (confirmed): for every tracker state (reachable through
`handleHookEvent` under positive clock readings) and every current time,
`isClaudeActive` computes exactly the spec's four-step derivation rule:
false when the session is null and the task mapping empty; else true
when the task mapping is non-empty; else true when `lastActivity` is set
and `now - lastActivity < INACTIVITY_TIMEOUT` (120000 ms); else false. -/
theorem queryActive_matches_spec {s : TrackerState} (hs : Reachable s) (now : Nat) :
    isClaudeActive s now = queryActiveSpec s now := by
  have hwf := reachable_wf hs
  have hla := ((Bool.and_eq_true _ _).mp hwf).2
  unfold isClaudeActive queryActiveSpec
  cases hcs : s.currentSession with
  | none =>
      cases hts : s.activeTasks with
      | nil => simp [jsTruthyOpt]
      | cons a l => simp [jsTruthyOpt]
  | some v =>
      have hv := wf_session_truthy hwf hcs
      cases hts : s.activeTasks with
      | cons a l => simp [jsTruthyOpt, hv]
      | nil =>
          cases hlav : s.lastActivity with
          | none => simp [jsTruthyOpt, hv, lastActivityTruthy]
          | some t =>
              have ht : (t != 0) = true := by
                simp only [Option.all, hlav] at hla
                exact hla
              by_cases hlt : now - t < 120000
              · simp [jsTruthyOpt, hv, lastActivityTruthy, ht, INACTIVITY_TIMEOUT, hlt]
              · simp [jsTruthyOpt, hv, lastActivityTruthy, ht, INACTIVITY_TIMEOUT, hlt]

/-- Witness for C1 at the initial tracker state. -/
theorem queryActive_matches_spec_witness :
    isClaudeActive initialState 0 = queryActiveSpec initialState 0 :=
  queryActive_matches_spec Reachable.init 0

/-- The state reached from a fresh tracker by one `{event: "task_start"}`
submission (no `tool_use_id`) at time 1. -/
def badStartState : TrackerState :=
  { isActive := true, lastActivity := some 1, currentSession := none,
    activeTasks := [],
    activityHistory := [{ event := bareTaskStartEvt, receivedAt := 1 }] }

/-- C2 counterexample: submitting a task-start with no taskId and no open
session to the fresh tracker leaves the cached `isActive` at `true`
while the query-time derivation yields `false` at the same instant, so
the cached flag is not always the value of the derivation rule. -/
theorem submit_cache_counterexample :
    handleHookEvent bareTaskStartEvt 1 initialState = some badStartState ∧
    badStartState.isActive = true ∧ isClaudeActive badStartState 1 = false :=
  ⟨rfl, rfl, rfl⟩

/-- C2 (amended): immediately after every `submit(event)`, the cached
`isActive` equals the derivation rule's value at that instant, provided
no submission so far (this one included) was a task-start with no truthy
taskId arriving while the session was null and the task mapping empty;
such a submission caches `true` where the derivation says `false`. -/
theorem submit_cache_consistent {s s1 : TrackerState} {e : Json} {now : Nat}
    (hs : GoodReachable s) (hnow : 0 < now) (hbad : badTaskStart e s = false)
    (hstep : handleHookEvent e now s = some s1) :
    s1.isActive = isClaudeActive s1 now := by
  cases hn : e.isNull with
  | true => simp [handleHookEvent, hn] at hstep
  | false =>
      rw [handleHookEvent_eq now s hn] at hstep
      have h1 := Option.some.inj hstep
      subst h1
      exact applyEvent_cache_consistent hnow
        (by rw [WFstate_history]; exact reachable_wf (goodReachable_reachable hs))
        (by rw [cacheOK_history]; exact goodReachable_cacheOK hs)
        (by rw [badTaskStart_history]; exact hbad)

/-- The state after submitting `sessionStartEvt` to the fresh tracker at time 1. -/
def sessionOpenState : TrackerState :=
  { isActive := true, lastActivity := some 1,
    currentSession := some (Json.str "s1"), activeTasks := [],
    activityHistory := [{ event := sessionStartEvt, receivedAt := 1 }] }

/-- Witness for C2 (amended) at a concrete session-start submission. -/
theorem submit_cache_consistent_witness :
    sessionOpenState.isActive = isClaudeActive sessionOpenState 1 :=
  submit_cache_consistent (e := sessionStartEvt) GoodReachable.init
    (by decide) (by decide) rfl

/-- The state reached from a fresh tracker by session-start at time 1000
followed by session-end at time 1001: no session, no tasks, but
`lastActivity` still holds 1000. -/
def idleTimedState : TrackerState :=
  { isActive := false, lastActivity := some 1000, currentSession := none,
    activeTasks := [],
    activityHistory := [{ event := sessionEndEvt, receivedAt := 1001 },
                        { event := sessionStartEvt, receivedAt := 1000 }] }

/-- C3 counterexample: in a reachable state with no session, no tasks and
`lastActivityAt = 1000`, the query is already false at `now = 1000`,
strictly inside the claimed active window (`1000 < 1000 + timeout`):
rule 1 (`no session and no tasks`) forces false regardless of the
timeout, so the claimed window does not exist in this configuration. -/
theorem timeout_window_counterexample :
    runEvents [(sessionStartEvt, 1000), (sessionEndEvt, 1001)] initialState
      = some idleTimedState ∧
    idleTimedState.currentSession = none ∧
    idleTimedState.activeTasks = [] ∧
    idleTimedState.lastActivity = some 1000 ∧
    1000 < 1000 + INACTIVITY_TIMEOUT ∧
    isClaudeActive idleTimedState 1000 = false :=
  ⟨rfl, rfl, rfl, rfl, by norm_num [INACTIVITY_TIMEOUT], rfl⟩

/-- C3 (amended): with an OPEN session and no tasks, given
`lastActivityAt = T` (a session value and timestamp as the tracker
stores them: truthy and positive) and no further events, `queryActive()`
is true for every `now < T + timeout` and false for every
`now >= T + timeout`.  (With no session and no tasks, rule 1 makes
`queryActive()` constantly false instead.) -/
theorem session_timeout_window {s : TrackerState} {v : Json} {T : Nat}
    (hsess : s.currentSession = some v) (hv : jsTruthy v = true)
    (htasks : s.activeTasks = []) (hla : s.lastActivity = some T) (hT : 0 < T)
    (now : Nat) :
    isClaudeActive s now = decide (now < T + INACTIVITY_TIMEOUT) := by
  have hTnz : (T != 0) = true := by simp [Nat.pos_iff_ne_zero.mp hT]
  have key : (now - T < INACTIVITY_TIMEOUT) ↔ (now < T + INACTIVITY_TIMEOUT) := by
    unfold INACTIVITY_TIMEOUT
    omega
  unfold isClaudeActive
  rw [hsess, htasks, hla]
  rcases Nat.lt_or_ge now (T + INACTIVITY_TIMEOUT) with hlt | hge
  · simp [jsTruthyOpt, hv, lastActivityTruthy, hTnz, key.mpr hlt, hlt]
  · have hnlt : ¬ (now - T < INACTIVITY_TIMEOUT) := fun hc =>
      absurd (key.mp hc) (Nat.not_lt.mpr hge)
    simp [jsTruthyOpt, hv, lastActivityTruthy, hTnz, hnlt, Nat.not_lt.mpr hge]

/-- Witness for C3 (amended) on the reachable open-session state, once
inside and once outside the window. -/
theorem session_timeout_window_witness :
    isClaudeActive sessionOpenState 3 = decide (3 < 1 + INACTIVITY_TIMEOUT) ∧
    isClaudeActive sessionOpenState 999999 = decide (999999 < 1 + INACTIVITY_TIMEOUT) :=
  ⟨session_timeout_window rfl (by decide) rfl rfl (by decide) 3,
   session_timeout_window rfl (by decide) rfl rfl (by decide) 999999⟩

/-- C4 (confirmed): whenever the task mapping is non-empty,
`isClaudeActive` returns true at every current time, however much time
has elapsed since `lastActivity`: the in-flight-task override beats the
inactivity timeout. -/
theorem tasks_override_timeout {s : TrackerState} (h : s.activeTasks ≠ [])
    (now : Nat) : isClaudeActive s now = true := by
  unfold isClaudeActive
  cases hts : s.activeTasks with
  | nil => exact absurd hts h
  | cons a l => simp

/-- A state with one in-flight task and a stale `lastActivity`. -/
def oneTaskState : TrackerState :=
  { isActive := true, lastActivity := some 5, currentSession := none,
    activeTasks := [(Json.str "t1", { startedAt := 5, toolName := none })],
    activityHistory := [] }

/-- Witness for C4 far beyond the timeout window. -/
theorem tasks_override_timeout_witness :
    isClaudeActive oneTaskState 999999999 = true :=
  tasks_override_timeout (by simp [oneTaskState]) 999999999

lemma isNull_false_of_kind {e : Json} {k : EventKind} (hk : kindOf e = k)
    (hne : k ≠ EventKind.other) : e.isNull = false := by
  cases e with
  | null =>
      have h0 : kindOf Json.null = EventKind.other := rfl
      rw [h0] at hk
      exact absurd hk.symm hne
  | bool b => rfl
  | num n => rfl
  | str s => rfl
  | arr xs => rfl
  | obj fs => rfl

/-- C6 (confirmed): submitting a session-end event twice in a row yields
the same `session`/`tasks`/`isActive` fields as submitting it once —
session null, task mapping empty, inactive (both as the cached flag and
as the query-time derivation). -/
theorem session_end_idempotent (s : TrackerState) (e : Json) (now1 now2 : Nat)
    (he : kindOf e = EventKind.sessionEnd) :
    ∃ s1 s2, handleHookEvent e now1 s = some s1 ∧
      handleHookEvent e now2 s1 = some s2 ∧
      s1.currentSession = none ∧ s1.activeTasks = [] ∧ s1.isActive = false ∧
      s2.currentSession = s1.currentSession ∧ s2.activeTasks = s1.activeTasks ∧
      s2.isActive = s1.isActive ∧
      (∀ q, isClaudeActive s2 q = false) := by
  have hn : e.isNull = false := isNull_false_of_kind he (by simp)
  refine ⟨_, _, handleHookEvent_eq now1 s hn, handleHookEvent_eq now2 _ hn, ?_⟩
  simp [applyEvent, he, isClaudeActive, jsTruthyOpt]

/-- Witness for C6 at a concrete double session-end from an arbitrary
concrete state (the open-session state). -/
theorem session_end_idempotent_witness :
    ∃ s1 s2, handleHookEvent sessionEndEvt 7 sessionOpenState = some s1 ∧
      handleHookEvent sessionEndEvt 9 s1 = some s2 ∧
      s1.currentSession = none ∧ s1.activeTasks = [] ∧ s1.isActive = false ∧
      s2.currentSession = s1.currentSession ∧ s2.activeTasks = s1.activeTasks ∧
      s2.isActive = s1.isActive ∧
      (∀ q, isClaudeActive s2 q = false) :=
  session_end_idempotent sessionOpenState sessionEndEvt 7 9 rfl

/-- C8 (confirmed): a stop event (any alias: `stop`, `Stop`,
`SubagentStop`, all mapped to the same kind by the dispatch) sets
`lastActivity` to `now` and leaves `isActive`, `currentSession` and the
task mapping unchanged; only the history append accompanies it — the
flip to inactive is deferred to timeout evaluation at query time. -/
theorem stop_frame_effect (s : TrackerState) (e : Json) (now : Nat)
    (he : kindOf e = EventKind.stop) :
    ∃ s1, handleHookEvent e now s = some s1 ∧
      s1.lastActivity = some now ∧ s1.isActive = s.isActive ∧
      s1.currentSession = s.currentSession ∧ s1.activeTasks = s.activeTasks ∧
      s1.activityHistory = pushHistory e now s.activityHistory := by
  have hn : e.isNull = false := isNull_false_of_kind he (by simp)
  refine ⟨_, handleHookEvent_eq now s hn, ?_⟩
  simp [applyEvent, he]

/-- The event `{event: "SubagentStop"}`. -/
def subagentStopEvt : Json := Json.obj [("event", Json.str "SubagentStop")]

/-- Witness for C8 with the `SubagentStop` alias on the open-session state. -/
theorem stop_frame_effect_witness :
    ∃ s1, handleHookEvent subagentStopEvt 42 sessionOpenState = some s1 ∧
      s1.lastActivity = some 42 ∧ s1.isActive = sessionOpenState.isActive ∧
      s1.currentSession = sessionOpenState.currentSession ∧
      s1.activeTasks = sessionOpenState.activeTasks ∧
      s1.activityHistory = pushHistory subagentStopEvt 42 sessionOpenState.activityHistory :=
  stop_frame_effect sessionOpenState subagentStopEvt 42 rfl

lemma applyEvent_history (e : Json) (now : Nat) (s : TrackerState) :
    (applyEvent e now s).activityHistory = s.activityHistory := by
  cases hk : kindOf e <;> simp [applyEvent, hk]

lemma pushHistory_eq (e : Json) (now : Nat) (h : List ActivityRecord)
    (hlen : h.length ≤ 50) :
    pushHistory e now h = { event := e, receivedAt := now } :: h.take 49 := by
  unfold pushHistory
  rcases Nat.lt_or_ge h.length 50 with hlt | hge
  · have hno : ¬ (50 < ({ event := e, receivedAt := now } :: h).length) := by
      simp only [List.length_cons]
      omega
    rw [if_neg hno, List.take_of_length_le (by omega)]
  · have h50 : h.length = 50 := Nat.le_antisymm hlen hge
    have hyes : 50 < ({ event := e, receivedAt := now } :: h).length := by
      simp [List.length_cons, h50]
    rw [if_pos hyes]
    have h1 : ({ event := e, receivedAt := now } :: h).length - 1 = 49 + 1 := by
      simp [List.length_cons, h50]
    rw [List.dropLast_eq_take, h1, List.take_succ_cons]

/-- Sixty pairwise distinct probe events, numbered 0..59, submitted at
times 1..60. -/
def evs60 : List (Json × Nat) :=
  (List.range 60).map (fun i => (Json.obj [("n", Json.num (Int.ofNat i))], i + 1))

set_option maxRecDepth 100000 in
/-- C7 (confirmed): every submit appends exactly one record to the front
of the history regardless of the event kind, keeping it most-recent-first
and truncated to the 50 most recent entries (oldest dropped on overflow);
concretely, after 60 submissions the history has exactly 50 entries and
its head is the record of the most recently submitted event. -/
theorem history_append_cap :
    (∀ (s : TrackerState) (e : Json) (now : Nat), e.isNull = false →
      s.activityHistory.length ≤ 50 →
      ∃ s1, handleHookEvent e now s = some s1 ∧
        s1.activityHistory =
          { event := e, receivedAt := now } :: s.activityHistory.take 49 ∧
        s1.activityHistory.length = min (s.activityHistory.length + 1) 50) ∧
    (∃ sf, runEvents evs60 initialState = some sf ∧
      sf.activityHistory.length = 50 ∧
      sf.activityHistory.head? =
        some { event := Json.obj [("n", Json.num 59)], receivedAt := 60 }) := by
  constructor
  · intro s e now hn hlen
    refine ⟨_, handleHookEvent_eq now s hn, ?_, ?_⟩
    · rw [applyEvent_history]
      exact pushHistory_eq e now s.activityHistory hlen
    · rw [applyEvent_history]
      have h2 := pushHistory_eq e now s.activityHistory hlen
      have h3 : (pushHistory e now s.activityHistory).length
          = ({ event := e, receivedAt := now } :: s.activityHistory.take 49).length :=
        congrArg List.length h2
      rw [h3]
      simp only [List.length_cons, List.length_take]
      omega
  · exact ⟨_, rfl, rfl, rfl⟩

/-- Witness for C7's general clause on the fresh tracker. -/
theorem history_append_cap_witness :
    ∃ s1, handleHookEvent (Json.str "ping") 3 initialState = some s1 ∧
      s1.activityHistory =
        { event := Json.str "ping", receivedAt := 3 } :: initialState.activityHistory.take 49 ∧
      s1.activityHistory.length = min (initialState.activityHistory.length + 1) 50 :=
  history_append_cap.1 initialState (Json.str "ping") 3 rfl (by decide)

/-- C9 (confirmed): when the POST /hook body cannot be decoded into an
event (either `JSON.parse` throws, or it yields `null`, whose field
dereference throws before any mutation), the server responds 400 with
`{error:"Invalid JSON"}` and the tracker state is entirely unchanged; on
decode success it submits the event and responds 200 with
`{success:true}`. -/
theorem post_hook_contract (p : Option Json) (s : TrackerState) (now : Nat) :
    ((p = none ∨ p = some Json.null) →
      handlePostHook p now s = ({ status := 400, body := invalidJsonBody }, s)) ∧
    (∀ e, p = some e → e.isNull = false →
      ∃ s1, handleHookEvent e now s = some s1 ∧
        handlePostHook p now s = ({ status := 200, body := successBody }, s1)) := by
  constructor
  · rintro (rfl | rfl)
    · rfl
    · rfl
  · rintro e rfl hn
    exact ⟨_, handleHookEvent_eq now s hn,
      by simp [handlePostHook, handleHookEvent_eq now s hn]⟩

/-- Witness for C9: a parse failure on the fresh tracker, and a decoded
session-start accepted with 200. -/
theorem post_hook_contract_witness :
    handlePostHook none 5 initialState
      = ({ status := 400, body := invalidJsonBody }, initialState) ∧
    (∃ s1, handleHookEvent sessionStartEvt 5 initialState = some s1 ∧
      handlePostHook (some sessionStartEvt) 5 initialState
        = ({ status := 200, body := successBody }, s1)) :=
  ⟨(post_hook_contract none initialState 5).1 (Or.inl rfl),
   (post_hook_contract (some sessionStartEvt) initialState 5).2 sessionStartEvt rfl rfl⟩

/-- A non-null primitive JSON value (number, string, or boolean). -/
def Json.isPrimitive : Json → Bool
  | Json.num _ => true
  | Json.str _ => true
  | Json.bool _ => true
  | _ => false

/-- C10 (confirmed): a body that is valid JSON but decodes to `null` is
rejected 400 `{error:"Invalid JSON"}` with the state unchanged (the
`event.event` dereference throws before any mutation, the history append
included, and the same catch answers), whereas a body decoding to a
non-null primitive (number, string, boolean) is accepted 200 and treated
as an unrecognized kind: only `lastActivity` is set and one history
record appended. -/
theorem null_vs_primitive_body (s : TrackerState) (now : Nat) :
    (handlePostHook (some Json.null) now s
      = ({ status := 400, body := invalidJsonBody }, s)) ∧
    (∀ e, e.isPrimitive = true →
      handlePostHook (some e) now s = ({ status := 200, body := successBody },
        { s with lastActivity := some now,
                 activityHistory := pushHistory e now s.activityHistory })) := by
  constructor
  · rfl
  · intro e hp
    have hn : e.isNull = false := by
      cases e <;> first | rfl | simp [Json.isPrimitive] at hp
    have hk : kindOf e = EventKind.other := by
      cases e <;> first | rfl | simp [Json.isPrimitive] at hp
    simp only [handlePostHook, handleHookEvent_eq now s hn]
    simp [applyEvent, hk]

/-- Witness for C10 on the fresh tracker with the number body `42`. -/
theorem null_vs_primitive_body_witness :
    handlePostHook (some Json.null) 8 initialState
      = ({ status := 400, body := invalidJsonBody }, initialState) ∧
    handlePostHook (some (Json.num 42)) 8 initialState
      = ({ status := 200, body := successBody },
        { initialState with
          lastActivity := some 8,
          activityHistory := pushHistory (Json.num 42) 8 initialState.activityHistory }) :=
  ⟨(null_vs_primitive_body initialState 8).1,
   (null_vs_primitive_body initialState 8).2 (Json.num 42) rfl⟩

/-- The event `{event: "task_start", tool_use_id: id}`. -/
def taskStartEvt (id : String) : Json :=
  Json.obj [("event", Json.str "task_start"), ("tool_use_id", Json.str id)]

/-- The event `{event: "task_end", tool_use_id: id}`. -/
def taskEndEvt (id : String) : Json :=
  Json.obj [("event", Json.str "task_end"), ("tool_use_id", Json.str id)]

lemma jsTruthy_str {id : String} (hid : id ≠ "") :
    jsTruthy (Json.str id) = true := by
  simp [jsTruthy, hid]

lemma handle_taskStartEvt (id : String) (hid : id ≠ "") (now : Nat) (s : TrackerState) :
    handleHookEvent (taskStartEvt id) now s = some
      { s with
        activeTasks := mapSet (Json.str id) { startedAt := now, toolName := none } s.activeTasks,
        isActive := true, lastActivity := some now,
        activityHistory := pushHistory (taskStartEvt id) now s.activityHistory } := by
  have hk : kindOf (taskStartEvt id) = EventKind.taskStart := rfl
  have hg : getField (taskStartEvt id) "tool_use_id" = some (Json.str id) := rfl
  have hg2 : getField (taskStartEvt id) "tool_name" = none := rfl
  have htt : ∀ m, taskStartTasks (taskStartEvt id) now m
      = mapSet (Json.str id) { startedAt := now, toolName := none } m := by
    intro m
    simp only [taskStartTasks, hg, hg2, jsTruthy_str hid, if_true]
  rw [handleHookEvent_eq (e := taskStartEvt id) now s rfl]
  simp [applyEvent, hk, htt]

lemma handle_taskEndEvt (id : String) (hid : id ≠ "") (now : Nat) (s : TrackerState) :
    handleHookEvent (taskEndEvt id) now s = some
      { s with
        activeTasks := mapDelete (Json.str id) s.activeTasks,
        lastActivity := some now,
        isActive := decide (0 < (mapDelete (Json.str id) s.activeTasks).length)
          || s.currentSession.isSome,
        activityHistory := pushHistory (taskEndEvt id) now s.activityHistory } := by
  have hk : kindOf (taskEndEvt id) = EventKind.taskEnd := rfl
  have hg : getField (taskEndEvt id) "tool_use_id" = some (Json.str id) := rfl
  have htt : ∀ m, taskEndTasks (taskEndEvt id) m = mapDelete (Json.str id) m := by
    intro m
    simp only [taskEndTasks, hg, jsTruthy_str hid, if_true]
  rw [handleHookEvent_eq (e := taskEndEvt id) now s rfl]
  simp [applyEvent, hk, htt]

/-- Task-start submissions for a list of (taskId, time) pairs. -/
def startEvents (l : List (String × Nat)) : List (Json × Nat) :=
  l.map (fun p => (taskStartEvt p.1, p.2))

/-- Task-end submissions for a list of (taskId, time) pairs. -/
def endEvents (l : List (String × Nat)) : List (Json × Nat) :=
  l.map (fun p => (taskEndEvt p.1, p.2))

/-- The task mapping after the `Map.set` calls of a batch of task-starts. -/
def insertIds (l : List (String × Nat)) (m : List (Json × TaskEntry)) :
    List (Json × TaskEntry) :=
  l.foldl (fun m p => mapSet (Json.str p.1) { startedAt := p.2, toolName := none } m) m

/-- The task mapping after the `Map.delete` calls of a batch of task-ends. -/
def deleteIds (l : List (String × Nat)) (m : List (Json × TaskEntry)) :
    List (Json × TaskEntry) :=
  l.foldl (fun m p => mapDelete (Json.str p.1) m) m

lemma runEvents_append (l1 l2 : List (Json × Nat)) (s : TrackerState) :
    runEvents (l1 ++ l2) s = (runEvents l1 s).bind (runEvents l2) := by
  induction l1 generalizing s with
  | nil => simp [runEvents]
  | cons p rest ih =>
      obtain ⟨e, t⟩ := p
      cases h : handleHookEvent e t s with
      | none => simp [runEvents, h]
      | some s1 => simp [runEvents, h, ih s1]

lemma runEvents_starts (l : List (String × Nat)) (s : TrackerState)
    (hids : ∀ p ∈ l, p.1 ≠ "") :
    ∃ s1, runEvents (startEvents l) s = some s1 ∧
      s1.activeTasks = insertIds l s.activeTasks ∧
      s1.currentSession = s.currentSession := by
  induction l generalizing s with
  | nil => exact ⟨s, rfl, rfl, rfl⟩
  | cons p rest ih =>
      obtain ⟨id, t⟩ := p
      have hid : id ≠ "" := hids (id, t) (List.mem_cons_self _ _)
      obtain ⟨s1, hrun, htasks, hsess⟩ :=
        ih _ (fun q hq => hids q (List.mem_cons_of_mem _ hq))
      refine ⟨s1, ?_, ?_, ?_⟩
      · simp only [startEvents, List.map_cons, runEvents,
          handle_taskStartEvt id hid t s]
        exact hrun
      · exact htasks
      · exact hsess

lemma runEvents_ends (l : List (String × Nat)) (s : TrackerState)
    (hids : ∀ p ∈ l, p.1 ≠ "") :
    ∃ s1, runEvents (endEvents l) s = some s1 ∧
      s1.activeTasks = deleteIds l s.activeTasks ∧
      s1.currentSession = s.currentSession := by
  induction l generalizing s with
  | nil => exact ⟨s, rfl, rfl, rfl⟩
  | cons p rest ih =>
      obtain ⟨id, t⟩ := p
      have hid : id ≠ "" := hids (id, t) (List.mem_cons_self _ _)
      obtain ⟨s1, hrun, htasks, hsess⟩ :=
        ih _ (fun q hq => hids q (List.mem_cons_of_mem _ hq))
      refine ⟨s1, ?_, ?_, ?_⟩
      · simp only [endEvents, List.map_cons, runEvents,
          handle_taskEndEvt id hid t s]
        exact hrun
      · exact htasks
      · exact hsess

lemma mem_mapSet {q : Json × TaskEntry} {k : Json} {v : TaskEntry}
    {m : List (Json × TaskEntry)} (hq : q ∈ mapSet k v m) :
    q.1 = k ∨ q ∈ m := by
  unfold mapSet at hq
  split at hq
  · rcases List.mem_map.mp hq with ⟨p, hp, hpq⟩
    cases hpk : Json.primEq p.1 k with
    | true =>
        rw [if_pos hpk] at hpq
        left
        rw [← hpq]
    | false =>
        rw [if_neg (by simp [hpk])] at hpq
        right
        rw [← hpq]
        exact hp
  · rcases List.mem_append.mp hq with h | h
    · right; exact h
    · left
      have h1 : q = (k, v) := by simpa using h
      rw [h1]

lemma mem_insertIds {l : List (String × Nat)} {m : List (Json × TaskEntry)}
    {q : Json × TaskEntry} (hq : q ∈ insertIds l m) :
    (∃ p ∈ l, q.1 = Json.str p.1) ∨ q ∈ m := by
  induction l generalizing m with
  | nil => right; exact hq
  | cons p rest ih =>
      have hq2 : q ∈ insertIds rest
          (mapSet (Json.str p.1) { startedAt := p.2, toolName := none } m) := hq
      rcases ih hq2 with h | h
      · obtain ⟨p1, hp1, hk⟩ := h
        exact Or.inl ⟨p1, List.mem_cons_of_mem _ hp1, hk⟩
      · rcases mem_mapSet h with h1 | h1
        · exact Or.inl ⟨p, List.mem_cons_self _ _, h1⟩
        · exact Or.inr h1

lemma deleteIds_filter (l : List (String × Nat)) (m : List (Json × TaskEntry)) :
    deleteIds l m
      = m.filter (fun q => !(l.any (fun p => Json.primEq q.1 (Json.str p.1)))) := by
  induction l generalizing m with
  | nil => simp [deleteIds]
  | cons p rest ih =>
      have h0 : deleteIds (p :: rest) m
          = deleteIds rest (mapDelete (Json.str p.1) m) := rfl
      rw [h0, ih, mapDelete, List.filter_filter]
      congr 1
      funext q
      simp [Bool.and_comm]

lemma deleteIds_eq_nil {l : List (String × Nat)} {m : List (Json × TaskEntry)}
    (h : ∀ q ∈ m, ∃ p ∈ l, q.1 = Json.str p.1) :
    deleteIds l m = [] := by
  rw [deleteIds_filter]
  rw [List.filter_eq_nil_iff]
  intro q hq
  obtain ⟨p, hp, hkey⟩ := h q hq
  simp only [Bool.not_eq_true', Bool.not_eq_false]
  exact List.any_eq_true.mpr ⟨p, hp, by simp [hkey, Json.primEq]⟩

/-- C5 (confirmed): for every batch of task-start events with pairwise
distinct (truthy) taskIds followed by the matching task-end events in any
order, starting from a state with no open session and no tasks in
flight, the final task mapping is empty and `queryActive()` is false
immediately after the last task-end (at every query time, the freshly
set `lastActivity` notwithstanding), and `snapshot()` reports
`activeTaskCount = 0` and `isActive = false`. -/
theorem task_balance (sts ens : List (String × Nat)) (s : TrackerState)
    (_hnodup : (sts.map Prod.fst).Nodup)
    (hperm : (ens.map Prod.fst).Perm (sts.map Prod.fst))
    (hids : ∀ p ∈ sts, p.1 ≠ "")
    (hsess : s.currentSession = none) (htasks : s.activeTasks = []) :
    ∃ sf, runEvents (startEvents sts ++ endEvents ens) s = some sf ∧
      sf.activeTasks = [] ∧ sf.currentSession = none ∧
      (∀ q, isClaudeActive sf q = false ∧
        (getStatus sf q).isActive = false ∧
        (getStatus sf q).activeTaskCount = 0) := by
  have hids2 : ∀ p ∈ ens, p.1 ≠ "" := by
    intro p hp
    have h1 : p.1 ∈ ens.map Prod.fst := List.mem_map_of_mem _ hp
    have h2 : p.1 ∈ sts.map Prod.fst := hperm.mem_iff.mp h1
    obtain ⟨p1, hp1, he⟩ := List.mem_map.mp h2
    rw [← he]
    exact hids p1 hp1
  obtain ⟨s1, hrun1, htasks1, hsess1⟩ := runEvents_starts sts s hids
  obtain ⟨s2, hrun2, htasks2, hsess2⟩ := runEvents_ends ens s1 hids2
  have hsessf : s2.currentSession = none := by
    rw [hsess2, hsess1, hsess]
  have hfinal : s2.activeTasks = [] := by
    rw [htasks2]
    apply deleteIds_eq_nil
    intro q hq
    rw [htasks1, htasks] at hq
    rcases mem_insertIds hq with h | h
    · obtain ⟨p, hp, hk⟩ := h
      have hmem : p.1 ∈ ens.map Prod.fst :=
        hperm.mem_iff.mpr (List.mem_map_of_mem _ hp)
      obtain ⟨p1, hp1, he⟩ := List.mem_map.mp hmem
      exact ⟨p1, hp1, by rw [hk, he]⟩
    · simp at h
  have hquery : ∀ q, isClaudeActive s2 q = false := by
    intro q
    unfold isClaudeActive
    rw [hfinal, hsessf]
    simp [jsTruthyOpt]
  refine ⟨s2, ?_, hfinal, hsessf, ?_⟩
  · rw [runEvents_append, hrun1]
    exact hrun2
  · intro q
    refine ⟨hquery q, ?_, ?_⟩
    · simpa [getStatus] using hquery q
    · simp [getStatus, hfinal]

/-- Witness for C5: the concrete Scenario B — from a fresh tracker,
task-start "t1" then task-end "t1" with no session. -/
theorem task_balance_witness :
    ∃ sf, runEvents (startEvents [("t1", 1)] ++ endEvents [("t1", 2)]) initialState
        = some sf ∧
      sf.activeTasks = [] ∧ sf.currentSession = none ∧
      (∀ q, isClaudeActive sf q = false ∧
        (getStatus sf q).isActive = false ∧
        (getStatus sf q).activeTaskCount = 0) :=
  task_balance [("t1", 1)] [("t1", 2)] initialState (by simp)
    (List.Perm.refl _) (by decide) rfl rfl
